import Mathlib

/-!
Verification of the response-normalization pipeline of the HealthCare_System
repository (React frontend: the symptom-checker page, the history page and the
API helper module).

The development shallowly embeds the relevant JavaScript/TypeScript code:

* `JVal` models a parsed JSON / JavaScript runtime value (as produced by
  `response.json()`); numbers are modelled as integers (floating point and
  `NaN` are out of scope for the claims considered here) and property access
  on `null`/`undefined`, which throws a `TypeError` in JavaScript, is made
  explicit via `Option`/`Except` at exactly the access sites that are
  unguarded in the source.
* Host-environment behaviour that the code delegates to the JavaScript
  runtime — `Date` parsing (`new Date(s)`), `toLocaleString`, `parseInt` — is
  kept abstract as function parameters, so every theorem quantifies over all
  possible behaviours of those host functions.
* The case maps and the whitespace class are modelled for ASCII only:
  `Char.toUpper`/`Char.toLower` stand in for
  `String.prototype.toUpperCase`/`toLowerCase`, and `isJsWs` for the
  whitespace removed by `String.prototype.trim`.  On ASCII strings these
  agree exactly with the host; JavaScript additionally applies Unicode
  special casing (e.g. `"ß".toUpperCase() = "SS"`, a one-to-two expansion)
  and trims Unicode whitespace such as U+00A0, neither of which this
  embedding represents.  The one theorem whose truth depends on case
  mapping beyond fixed ASCII sample strings therefore carries an explicit
  `allAscii` hypothesis restricting it to the domain where the model is
  exact.
-/

/-- A JavaScript runtime value, as obtained from `JSON.parse` /
`response.json()` or held in component state.  `undef` is JavaScript's
`undefined` (also the result of reading an absent property). -/
inductive JVal where
  | undef
  | null
  | bool (b : Bool)
  | num (n : Int)
  | str (s : String)
  | arr (elems : List JVal)
  | obj (fields : List (String × JVal))

/-- JavaScript truthiness: `undefined`, `null`, `false`, `0` and `""` are
falsy; every other value (including every object and array) is truthy. -/
def jsTruthy : JVal → Bool
  | JVal.undef => false
  | JVal.null => false
  | JVal.bool b => b
  | JVal.num n => !(n == 0)
  | JVal.str s => !(s == "")
  | JVal.arr _ => true
  | JVal.obj _ => true

/-- Nullishness, the class tested by the `??` and `?.` operators. -/
def jsNullish : JVal → Bool
  | JVal.undef => true
  | JVal.null => true
  | _ => false

/-- Property read `v.k` on a receiver already known not to be nullish
(objects yield the property or `undefined`; primitives and arrays have none
of the properties this code reads, hence `undefined`).  Reads on
`null`/`undefined` receivers throw in JavaScript; the call sites below that
can reach a nullish receiver model that throw explicitly instead of calling
this function. -/
def jsGet (v : JVal) (k : String) : JVal :=
  match v with
  | JVal.obj fields => (fields.lookup k).getD JVal.undef
  | _ => JVal.undef

/-- Optional-chaining read `v?.k`: `undefined` on a nullish receiver. -/
def jsGetOpt (v : JVal) (k : String) : JVal :=
  if jsNullish v then JVal.undef else jsGet v k

/-- The `a ?? b` operator. -/
def jsCoalesce (a b : JVal) : JVal :=
  if jsNullish a then b else a

/-- The `a || b` operator (on values, as used by the source). -/
def jsOr (a b : JVal) : JVal :=
  if jsTruthy a then a else b

/-- Property write on an association list: overwrite in place if the key is
present (JavaScript keeps the original property order), append otherwise. -/
def setAssoc : List (String × JVal) → String → JVal → List (String × JVal)
  | [], k, v => [(k, v)]
  | (k', v') :: rest, k, v =>
    if k' == k then (k, v) :: rest else (k', v') :: setAssoc rest k v

/-- Property assignment `v.k = x`.  On non-objects it is a silent no-op
(non-strict mode); the source only ever assigns to values it has just
checked to be object-shaped. -/
def jsSet (v : JVal) (k : String) (x : JVal) : JVal :=
  match v with
  | JVal.obj fields => JVal.obj (setAssoc fields k x)
  | _ => v

/-- `Array.isArray`. -/
def isArr : JVal → Bool
  | JVal.arr _ => true
  | _ => false

mutual

/-- `String(v)` / `.toString()` conversion.  Arrays stringify as their
elements joined by `","` with nullish elements contributing the empty
string, exactly as `Array.prototype.toString`. -/
def jsToString : JVal → String
  | JVal.undef => "undefined"
  | JVal.null => "null"
  | JVal.bool b => if b then "true" else "false"
  | JVal.num n => toString n
  | JVal.str s => s
  | JVal.obj _ => "[object Object]"
  | JVal.arr xs => String.intercalate "," (jsToStringElems xs)

/-- Element conversion of `Array.prototype.join`: nullish elements become
the empty string, the rest go through `jsToString`. -/
def jsToStringElems : List JVal → List String
  | [] => []
  | JVal.null :: rest => "" :: jsToStringElems rest
  | JVal.undef :: rest => "" :: jsToStringElems rest
  | v :: rest => jsToString v :: jsToStringElems rest

end

/-- The ASCII whitespace characters removed by `String.prototype.trim`
(space, tab, line feed, carriage return, vertical tab, form feed).  The
host trim also removes Unicode whitespace above code point 127 (U+00A0,
U+2028, U+FEFF, ...), which is outside this ASCII model; see `allAscii`. -/
def isJsWs (c : Char) : Bool :=
  c.toNat = 32 || c.toNat = 9 || c.toNat = 10 || c.toNat = 13 ||
    c.toNat = 11 || c.toNat = 12

/-- Trim on character lists: drop whitespace from the front, then from the
back (via reversal). -/
def trimL (cs : List Char) : List Char :=
  ((cs.dropWhile isJsWs).reverse.dropWhile isJsWs).reverse

/-- `s.trim()`. -/
def jsTrim (s : String) : String :=
  ⟨trimL s.data⟩

/-- Title-casing on character lists: first character upper-cased, the rest
lower-cased — the shape of
`t.charAt(0).toUpperCase() + t.slice(1).toLowerCase()`. -/
def titleL : List Char → List Char
  | [] => []
  | c :: rest => Char.toUpper c :: rest.map Char.toLower

/-- `t.charAt(0).toUpperCase() + t.slice(1).toLowerCase()`. -/
def jsTitle (s : String) : String :=
  ⟨titleL s.data⟩

/-- Is the character ASCII (code point below 128)? -/
def isAsciiChar (ch : Char) : Bool :=
  ch.toNat < 128

/-- ASCII-only strings: the domain on which `jsTrim` and `jsTitle` agree
exactly with the host's `trim` / `toUpperCase` / `toLowerCase`.
JavaScript's special casing (one-to-two expansions such as
`"ß".toUpperCase() = "SS"`) and its extra whitespace classes involve only
code points above 127.  ASCII simple case mapping and full case mapping
coincide, so on this domain the ASCII maps are the host's behaviour, not
an approximation. -/
def allAscii (s : String) : Bool :=
  s.data.all isAsciiChar

/-!
Embedding of `frontend/src/pages/index` (the symptom-checker page, default
export `Index`): the submit guard, the request body, and the response-shape
check plus per-condition normalization inside `handleSubmit`.
-/

/-- The probability expression of the per-condition normalization map
(`handleSubmit`, conditions mapping):
`(c.probability || "Low").toString().trim().charAt(0).toUpperCase() +
 (c.probability || "low").toString().trim().slice(1).toLowerCase()`.
For a falsy value both fallbacks fire and the two halves assemble `"Low"`;
for a truthy value both operands are the value itself, so the result is the
title-cased trim of its string form. -/
def normalizeProbability (v : JVal) : String :=
  if jsTruthy v then jsTitle (jsTrim (jsToString v)) else "Low"

/-- One step of `data.conditions.map((c) => ({ name: c.name || "Unknown",
probability: ..., description: c.description || "" }))`.  A nullish element
makes the property reads throw (`none`); any other element yields the
three-field object. -/
def normalizeCondition (c : JVal) : Option JVal :=
  match c with
  | JVal.undef => none
  | JVal.null => none
  | _ =>
    some (JVal.obj
      [("name", jsOr (jsGet c "name") (JVal.str "Unknown")),
       ("probability", JVal.str (normalizeProbability (jsGet c "probability"))),
       ("description", jsOr (jsGet c "description") (JVal.str ""))])

/-- The message of the shape error thrown by `handleSubmit`. -/
def shapeErrorMsg : String :=
  "Unexpected response shape from API (mite be json issue)"

/-- The part of `handleSubmit` that runs on the parsed JSON body of a 2xx
response: the shape check
`if (!data || !Array.isArray(data.conditions) ||
     !Array.isArray(data.recommendations)) throw ...`,
then the in-place normalization `data.conditions = data.conditions.map(...)`.
An error value models the thrown exception, which the surrounding
`catch` turns into the error state (`setError`), leaving `result` at the
`null` it was reset to; `Except.ok` models the `setResult(data)` call. -/
def normalizeAnalyzeResponse (data : JVal) : Except String JVal :=
  if jsTruthy data then
    match jsGet data "conditions", jsGet data "recommendations" with
    | JVal.arr cs, JVal.arr _ =>
      match cs.mapM normalizeCondition with
      | some cs2 => Except.ok (jsSet data "conditions" (JVal.arr cs2))
      | none => Except.error "TypeError: cannot read properties of null"
    | _, _ => Except.error shapeErrorMsg
  else Except.error shapeErrorMsg

/-- The `urgencyConfig` table keyed by urgency, modelled by its `label`
field (`icon`/`className` are presentational).  The rendered badge reads
`urgencyConfig[result.urgency].label` without any guard. -/
def urgencyConfig : List (String × String) :=
  [("emergency", "Emergency"), ("urgent", "Urgent"),
   ("routine", "Routine"), ("self-care", "Self-Care")]

/-- The (unguarded) lookup `urgencyConfig[result.urgency]` performed by the
result renderer; `none` means the lookup yields `undefined`, so the
subsequent `.className` / `.icon` / `.label` reads throw a `TypeError`. -/
def urgencyLookup (u : String) : Option String :=
  urgencyConfig.lookup u

/-- The request body `handleSubmit` would POST to `/api/analyze`. -/
structure AnalyzeRequest where
  symptoms : String
  age : Option Int
  gender : Option String
  duration : Option String

/-- The pre-fetch part of `handleSubmit`: the guard
`if (!symptoms.trim()) return;` and the request body construction
(`age ? parseInt(age) : undefined`, `gender || undefined`,
`duration || undefined`).  `pint` abstracts the host `parseInt`; `none`
means `handleSubmit` returned before issuing any request. -/
def handleSubmitRequest (pint : String → Int)
    (symptoms age gender duration : String) : Option AnalyzeRequest :=
  if jsTrim symptoms == "" then none
  else
    some ⟨jsTrim symptoms,
      if age == "" then none else some (pint age),
      if gender == "" then none else some gender,
      if duration == "" then none else some duration⟩

/-!
Embedding of `frontend/src/lib/api` (the unnamed source file defining
`fetchHistory` and `deleteHistory`).
-/

/-- Default of the `limit` parameter of
`export async function fetchHistory(limit = 20, skip = 0)`. -/
def fetchHistoryDefaultLimit : Nat := 20

/-- Default of the `skip` parameter of `fetchHistory`. -/
def fetchHistoryDefaultSkip : Nat := 0

/-- The URL `fetchHistory` fetches:
`${API_URL}/api/history?limit=${limit}&skip=${skip}`. -/
def fetchHistoryUrl (apiUrl : String) (limit skip : Nat) : String :=
  apiUrl ++ "/api/history?limit=" ++ toString limit ++ "&skip=" ++ toString skip

/-- The URL of a `fetchHistory` call that supplies no arguments, so both
defaults apply. -/
def fetchHistoryUrlDefault (apiUrl : String) : String :=
  fetchHistoryUrl apiUrl fetchHistoryDefaultLimit fetchHistoryDefaultSkip

/-- The URL `deleteHistory(id)` sends a DELETE request to:
`${API_URL}/api/history/${id}`.  No validation of `id` happens here. -/
def deleteHistoryUrl (apiUrl : String) (id : String) : String :=
  apiUrl ++ "/api/history/" ++ id

/-!
Embedding of the unnamed source file defining `HistoryPage` (the history
page component): `safeDateFromDoc`, the per-item field extraction of the
render loop, and `handleDelete`.
-/

/-- `new Date(x)` applied to the value of a `$date` envelope, reduced to an
optional millisecond timestamp (`none` standing for an invalid date; `pd`
abstracts the host date-string parser).  Following the `Date`
constructor's argument coercion: a string is parsed; a number is taken as
a timestamp, valid within the ±8.64e15 ms range; a boolean or `null`
coerces via `ToNumber` to the timestamps 1/0/0; `undefined` coerces to
`NaN`, an invalid date; an array or plain object is first converted to its
primitive — its `toString`, as in `jsToString` — and that string is
parsed. -/
def jsNewDate (pd : String → Option Int) : JVal → Option Int
  | JVal.str s => pd s
  | JVal.num n => if n.natAbs ≤ 8640000000000000 then some n else none
  | JVal.bool b => some (if b then 1 else 0)
  | JVal.null => some 0
  | JVal.undef => none
  | JVal.arr xs => pd (jsToString (JVal.arr xs))
  | JVal.obj fs => pd (jsToString (JVal.obj fs))

/-- Is the value a plain string? -/
def isStr : JVal → Bool
  | JVal.str _ => true
  | _ => false

/-- Scope predicate for the amended date-resolution claim: whenever the
candidate's `$date` envelope value is truthy — i.e. whenever the loop
would hand it to `new Date` — it is a plain string.  Outside this domain
the code is more lenient than the spec's `{ $date: <string> }` form: a
truthy non-string envelope (e.g. a numeric timestamp) is coerced by the
`Date` constructor and can still resolve. -/
def strOnlyDollarDate (v : JVal) : Bool :=
  !(jsTruthy (jsGetOpt v "$date")) || isStr (jsGetOpt v "$date")

/-- The body of one iteration of the loop in `safeDateFromDoc`:
`if (!v) continue;`
`if (typeof v === "string") { const d = new Date(v); if (!isNaN(d.getTime())) return d.toLocaleString(); }`
`if (v?.$date) { const d = new Date(v.$date); if (!isNaN(d.getTime())) return d.toLocaleString(); }`.
`some` is a `return` from the loop, `none` means the loop moves on; `fmt`
abstracts `toLocaleString`. -/
def tryCandidate (pd : String → Option Int) (fmt : Int → String)
    (v : JVal) : Option String :=
  if jsTruthy v then
    match v with
    | JVal.str s =>
      match pd s with
      | some t => some (fmt t)
      | none => none
    | _ =>
      if jsTruthy (jsGetOpt v "$date") then
        match jsNewDate pd (jsGetOpt v "$date") with
        | some t => some (fmt t)
        | none => none
      else none
  else none

/-- The `vals` array of `safeDateFromDoc`:
`[doc?._created_at, doc?.created_at, doc?.createdAt, doc?.result?._created_at]`. -/
def dateCandidates (doc : JVal) : List JVal :=
  [jsGetOpt doc "_created_at",
   jsGetOpt doc "created_at",
   jsGetOpt doc "createdAt",
   jsGetOpt (jsGetOpt doc "result") "_created_at"]

/-- The `for (const v of vals)` loop of `safeDateFromDoc`, falling through
to the sentinel. -/
def dateLoop (pd : String → Option Int) (fmt : Int → String) :
    List JVal → String
  | [] => "Invalid Date"
  | v :: rest =>
    match tryCandidate pd fmt v with
    | some s => s
    | none => dateLoop pd fmt rest

/-- `safeDateFromDoc(doc)` from the history page. -/
def safeDateFromDoc (pd : String → Option Int) (fmt : Int → String)
    (doc : JVal) : String :=
  dateLoop pd fmt (dateCandidates doc)

/-- Comparison definition written from the spec's words (spec §4.3), for
the refinement claim about `safeDateFromDoc`: each candidate is accepted
either as a plain string or as a wrapped `{ $date: <string> }` envelope
whose inner string is parsed. -/
def specCandidateParse (pd : String → Option Int) (v : JVal) : Option Int :=
  match v with
  | JVal.str s => pd s
  | _ =>
    match jsGetOpt v "$date" with
    | JVal.str s => pd s
    | _ => none

/-- Comparison definition written from the spec's words: the candidates are
tried in the fixed order, the first one that parses to a valid date
determines the display string, and if none parses the result is the literal
sentinel `"Invalid Date"`. -/
def resolveDateSpec (pd : String → Option Int) (fmt : Int → String)
    (doc : JVal) : String :=
  match (dateCandidates doc).findSome? (specCandidateParse pd) with
  | some t => fmt t
  | none => "Invalid Date"

/-- `Array.isArray(x) ? x : []`, the lenient array coercion used by the
history page for `recommendations` (explicitly) and for `conditions` (via
the render guard, which displays a non-array exactly like an empty
list). -/
def arrOrEmpty : JVal → List JVal
  | JVal.arr xs => xs
  | _ => []

/-- The per-item display record built by the render loop of `HistoryPage`
(lines binding `createdAtStr`, `symptoms`, `age`, `gender`, `summary`,
`recs`, `id`, plus the `Array.isArray(result.conditions)` guard of the
conditions section, which renders a non-array exactly like an empty
list). -/
structure HistoryDisplay where
  createdAtStr : String
  symptoms : JVal
  age : JVal
  gender : JVal
  summary : JVal
  recs : List JVal
  conditions : List JVal
  id : JVal

/-- The per-item extraction of `HistoryPage`:
`const input = it?.input ?? {}`, `const result = it?.result ?? {}`,
`safeDateFromDoc(it)`, `input.symptoms ?? "N/A"`, `input.age ?? "N/A"`,
`input.gender ?? "N/A"`, `result.summary ?? ""`,
`Array.isArray(result.recommendations) ? result.recommendations : []`,
`const id = it._id || ""`, and the conditions-section guard
`Array.isArray(result.conditions) && result.conditions.length > 0`.
The single unguarded access is `it._id` (no optional chaining), which
throws a `TypeError` when the list element itself is nullish; that throw is
the `Except.error`. -/
def historyDisplay (pd : String → Option Int) (fmt : Int → String)
    (it : JVal) : Except Unit HistoryDisplay :=
  match it with
  | JVal.undef => Except.error ()
  | JVal.null => Except.error ()
  | _ =>
    let input := jsCoalesce (jsGetOpt it "input") (JVal.obj [])
    let result := jsCoalesce (jsGetOpt it "result") (JVal.obj [])
    Except.ok
      ⟨safeDateFromDoc pd fmt it,
       jsCoalesce (jsGet input "symptoms") (JVal.str "N/A"),
       jsCoalesce (jsGet input "age") (JVal.str "N/A"),
       jsCoalesce (jsGet input "gender") (JVal.str "N/A"),
       jsCoalesce (jsGet result "summary") (JVal.str ""),
       arrOrEmpty (jsGet result "recommendations"),
       arrOrEmpty (jsGet result "conditions"),
       jsOr (jsGet it "_id") (JVal.str "")⟩

/-- Whether `handleDelete(id)` issues a DELETE request, and to which URL:
`if (!confirm("Delete this entry?")) return;` then
`await deleteHistory(id);` unconditionally.  `confirmed` is the user's
answer to the dialog. -/
def handleDeleteRequest (apiUrl : String) (confirmed : Bool)
    (id : String) : Option String :=
  if confirmed then some (deleteHistoryUrl apiUrl id) else none

/-- The state update of `handleDelete`: on a resolved delete,
`setItems((s) => s.filter((it) => String(it._id) !== String(id)))`; on a
rejected delete (the `catch` branch) or a declined dialog, the list is left
untouched.  (`String(it._id)` reads `_id` on each kept element; the claim
using this definition restricts to lists without nullish elements, on which
the plain read cannot throw.) -/
def handleDeleteItems (confirmed deleteResolved : Bool)
    (items : List JVal) (id : String) : List JVal :=
  if confirmed then
    if deleteResolved then
      items.filter fun it =>
        !(jsToString (jsGet it "_id") == jsToString (JVal.str id))
    else items
  else items

/-!
Concrete values used by the closed theorems below (failing inputs and
witness instantiations).
-/

/-- An analyze response that passes the shape check of `handleSubmit` while
carrying an urgency outside the four enumerated values. -/
def badUrgencyResponse : JVal :=
  JVal.obj
    [("conditions", JVal.arr []),
     ("recommendations", JVal.arr []),
     ("urgency", JVal.str "unknown")]

/-- A host date parser that accepts nothing (every candidate is an invalid
date). -/
def pdNone : String → Option Int :=
  fun _ => none

/-- A host date parser accepting exactly one ISO timestamp. -/
def pdIso : String → Option Int :=
  fun s => if s = "2024-01-02T03:04:05Z" then some 1704164645 else none

/-- A stand-in for `toLocaleString`. -/
def fmtTs : Int → String :=
  fun t => "@" ++ toString t

/-- A stand-in for `parseInt`. -/
def pintZero : String → Int :=
  fun _ => 0

/-- A history document carrying its timestamp under `created_at`. -/
def docCreatedAt : JVal :=
  JVal.obj [("created_at", JVal.str "2024-01-02T03:04:05Z")]

/-- A history document whose timestamp sits in a numeric `$date` envelope
(a non-string value the `Date` constructor accepts as a millisecond
timestamp). -/
def docNumDate : JVal :=
  JVal.obj [("_created_at", JVal.obj [("$date", JVal.num 1704164645000)])]

/-- A condition whose probability is a whitespace-only (hence truthy)
string. -/
def condWhitespaceProb : JVal :=
  JVal.obj
    [("name", JVal.str "Flu"),
     ("probability", JVal.str " "),
     ("description", JVal.str "cough")]

/-- What the condition normalizer makes of `condWhitespaceProb`: the
whitespace probability trims to the empty string. -/
def condBlankProb : JVal :=
  JVal.obj
    [("name", JVal.str "Flu"),
     ("probability", JVal.str ""),
     ("description", JVal.str "cough")]

/-- What a second normalization pass makes of `condBlankProb`: the now
falsy probability is replaced by `"Low"`. -/
def condLowProb : JVal :=
  JVal.obj
    [("name", JVal.str "Flu"),
     ("probability", JVal.str "Low"),
     ("description", JVal.str "cough")]

/-- A condition carrying only a name. -/
def condNameOnly : JVal :=
  JVal.obj [("name", JVal.str "Flu")]

/-- The normal form of `condNameOnly`. -/
def condNameOnlyNorm : JVal :=
  JVal.obj
    [("name", JVal.str "Flu"),
     ("probability", JVal.str "Low"),
     ("description", JVal.str "")]

/-- A two-element history list with distinct identifiers. -/
def itemsAB : List JVal :=
  [JVal.obj [("_id", JVal.str "a")], JVal.obj [("_id", JVal.str "b")]]

/-!
Helper lemmas: ASCII case maps, whitespace, trim and title-case, and small
facts about the JavaScript operators.  These feed the idempotence analysis
of the condition normalizer.
-/

theorem char_toNat_ofNat_valid (n : Nat) (h : n.isValidChar) :
    (Char.ofNat n).toNat = n := by
  rw [Char.ofNat, dif_pos h]
  rfl

theorem toUpper_toNat (c : Char) (h : 97 ≤ c.toNat) (h2 : c.toNat ≤ 122) :
    (Char.toUpper c).toNat = c.toNat - 32 := by
  rw [Char.toUpper]
  simp only [ge_iff_le, h, h2, and_self, if_pos]
  rw [char_toNat_ofNat_valid]
  exact Or.inl (by omega)

theorem toUpper_eq_self (c : Char) (h : ¬ (97 ≤ c.toNat ∧ c.toNat ≤ 122)) :
    Char.toUpper c = c := by
  rw [Char.toUpper]
  exact if_neg h

theorem toLower_toNat (c : Char) (h : 65 ≤ c.toNat) (h2 : c.toNat ≤ 90) :
    (Char.toLower c).toNat = c.toNat + 32 := by
  rw [Char.toLower]
  simp only [ge_iff_le, h, h2, and_self, if_pos]
  rw [char_toNat_ofNat_valid]
  exact Or.inl (by omega)

theorem toLower_eq_self (c : Char) (h : ¬ (65 ≤ c.toNat ∧ c.toNat ≤ 90)) :
    Char.toLower c = c := by
  rw [Char.toLower]
  exact if_neg h

theorem isJsWs_false_of_ge (c : Char) (h : 33 ≤ c.toNat) : isJsWs c = false := by
  simp only [isJsWs, Bool.or_eq_false_iff, decide_eq_false_iff_not]
  omega

theorem toUpper_idem (c : Char) :
    Char.toUpper (Char.toUpper c) = Char.toUpper c := by
  by_cases h : 97 ≤ c.toNat ∧ c.toNat ≤ 122
  · have h1 := toUpper_toNat c h.1 h.2
    apply toUpper_eq_self
    omega
  · rw [toUpper_eq_self c h, toUpper_eq_self c h]

theorem toLower_idem (c : Char) :
    Char.toLower (Char.toLower c) = Char.toLower c := by
  by_cases h : 65 ≤ c.toNat ∧ c.toNat ≤ 90
  · have h1 := toLower_toNat c h.1 h.2
    apply toLower_eq_self
    omega
  · rw [toLower_eq_self c h, toLower_eq_self c h]

theorem isJsWs_toUpper (c : Char) : isJsWs (Char.toUpper c) = isJsWs c := by
  by_cases h : 97 ≤ c.toNat ∧ c.toNat ≤ 122
  · have h1 := toUpper_toNat c h.1 h.2
    rw [isJsWs_false_of_ge _ (by omega), isJsWs_false_of_ge _ (by omega)]
  · rw [toUpper_eq_self c h]

theorem isJsWs_toLower (c : Char) : isJsWs (Char.toLower c) = isJsWs c := by
  by_cases h : 65 ≤ c.toNat ∧ c.toNat ≤ 90
  · have h1 := toLower_toNat c h.1 h.2
    rw [isJsWs_false_of_ge _ (by omega), isJsWs_false_of_ge _ (by omega)]
  · rw [toLower_eq_self c h]

theorem head?_dropWhile (p : Char → Bool) (l : List Char) (c : Char)
    (h : (l.dropWhile p).head? = some c) : p c = false := by
  induction l with
  | nil => simp at h
  | cons a l ih =>
    rw [List.dropWhile_cons] at h
    by_cases ha : p a
    · exact ih (by simpa [ha] using h)
    · rw [if_neg ha] at h
      rw [List.head?_cons, Option.some.injEq] at h
      subst h
      simpa using ha

theorem getLast?_dropWhile (p : Char → Bool) (l : List Char) (c : Char)
    (h : (l.dropWhile p).getLast? = some c) : l.getLast? = some c := by
  induction l with
  | nil => simp at h
  | cons a l ih =>
    rw [List.dropWhile_cons] at h
    by_cases ha : p a
    · simp only [ha, if_pos] at h
      have h2 := ih h
      have hne : l ≠ [] := by
        intro he
        subst he
        simp at h2
      cases l with
      | nil => exact absurd rfl hne
      | cons b t => simpa [List.getLast?_cons_cons] using h2
    · simpa [ha] using h

theorem dropWhile_eq_self_of_head (p : Char → Bool) (l : List Char)
    (h : ∀ c ∈ l.head?, p c = false) : l.dropWhile p = l := by
  cases l with
  | nil => rfl
  | cons a l =>
    have ha := h a (by simp)
    simp [List.dropWhile_cons, ha]

theorem trimL_head (cs : List Char) (c : Char)
    (h : (trimL cs).head? = some c) : isJsWs c = false := by
  unfold trimL at h
  rw [List.head?_reverse] at h
  have h2 := getLast?_dropWhile _ _ _ h
  rw [List.getLast?_reverse] at h2
  exact head?_dropWhile _ _ _ h2

theorem trimL_getLast (cs : List Char) (c : Char)
    (h : (trimL cs).getLast? = some c) : isJsWs c = false := by
  unfold trimL at h
  rw [List.getLast?_reverse] at h
  exact head?_dropWhile _ _ _ h

theorem trimL_eq_self (t : List Char)
    (h1 : ∀ c ∈ t.head?, isJsWs c = false)
    (h2 : ∀ c ∈ t.getLast?, isJsWs c = false) : trimL t = t := by
  unfold trimL
  rw [dropWhile_eq_self_of_head _ _ h1]
  rw [dropWhile_eq_self_of_head _ _ (by simpa [List.head?_reverse] using h2)]
  exact List.reverse_reverse t

theorem titleL_head_ws (t : List Char)
    (h : ∀ c ∈ t.head?, isJsWs c = false) :
    ∀ d ∈ (titleL t).head?, isJsWs d = false := by
  cases t with
  | nil => simp [titleL]
  | cons c rest =>
    intro d hd
    simp only [titleL, List.head?_cons, Option.mem_def, Option.some.injEq] at hd
    subst hd
    rw [isJsWs_toUpper]
    exact h c (by simp)

theorem titleL_getLast_ws (t : List Char)
    (h : ∀ c ∈ t.getLast?, isJsWs c = false) :
    ∀ d ∈ (titleL t).getLast?, isJsWs d = false := by
  cases t with
  | nil => simp [titleL]
  | cons c rest =>
    cases rest with
    | nil =>
      intro d hd
      simp only [titleL, List.map_nil, List.getLast?_singleton, Option.mem_def,
        Option.some.injEq] at hd
      subst hd
      rw [isJsWs_toUpper]
      exact h c (by simp)
    | cons b t2 =>
      intro d hd
      simp only [titleL, List.map_cons] at hd
      rw [List.getLast?_cons_cons] at hd
      have hmap : Char.toLower b :: List.map Char.toLower t2 =
          List.map Char.toLower (b :: t2) := rfl
      rw [hmap, List.getLast?_map] at hd
      rw [Option.mem_def, Option.map_eq_some'] at hd
      obtain ⟨e, he, hde⟩ := hd
      subst hde
      rw [isJsWs_toLower]
      apply h
      rw [List.getLast?_cons_cons]
      exact he

theorem titleL_idem (t : List Char) : titleL (titleL t) = titleL t := by
  cases t with
  | nil => rfl
  | cons c rest =>
    simp only [titleL, List.map_map]
    rw [toUpper_idem]
    refine congrArg _ ?_
    apply List.map_congr_left
    intro a _
    simp [Function.comp, toLower_idem]

theorem titleTrim_idem (s : String) :
    jsTitle (jsTrim (jsTitle (jsTrim s))) = jsTitle (jsTrim s) := by
  have h1 : trimL (titleL (trimL s.data)) = titleL (trimL s.data) :=
    trimL_eq_self _ (titleL_head_ws _ (fun c hc => trimL_head s.data c hc))
      (titleL_getLast_ws _ (fun c hc => trimL_getLast s.data c hc))
  show (⟨titleL (trimL (titleL (trimL s.data)))⟩ : String) =
    ⟨titleL (trimL s.data)⟩
  rw [h1, titleL_idem]

theorem jsOr_absorb (x y : JVal) : jsOr (jsOr x y) y = jsOr x y := by
  by_cases h : jsTruthy x = true
  · simp [jsOr, h]
  · simp [jsOr, h]

theorem jsCoalesce_of_nullish (a b : JVal) (h : jsNullish a = true) :
    jsCoalesce a b = b := by
  simp [jsCoalesce, h]

theorem jsOr_of_falsy (a b : JVal) (h : jsTruthy a = false) :
    jsOr a b = b := by
  simp [jsOr, h]

theorem arrOrEmpty_of_not (v : JVal) (h : isArr v = false) :
    arrOrEmpty v = [] := by
  cases v <;> simp_all [isArr, arrOrEmpty]

/-!
Claim theorems.
-/

/-- C1, counterexample: the probability normalization does not coerce
unrecognized values — the input `"unknown"` is title-cased to `"Unknown"`,
not mapped to `"Low"`, so the normalized probability is not always one of
High/Medium/Low. -/
theorem normalizeProbability_unknown_titlecased :
    normalizeProbability (JVal.str "unknown") = "Unknown" ∧
      normalizeProbability (JVal.str "unknown") ≠ "Low" := by
  exact ⟨by decide, by decide⟩

/-- C1 (amended): the normalization maps every falsy probability value
(absent field, `null`, the empty string) to `"Low"`, and every truthy value
to the trimmed, title-cased form of its string representation with no
further coercion; on the spec's sample inputs, `"high"`, `"HIGH"`,
`" Medium "` and `"low"` therefore yield `"High"`, `"High"`, `"Medium"` and
`"Low"`, but `"unknown"` yields `"Unknown"` — a value outside
High/Medium/Low. -/
theorem normalizeProbability_characterization :
    (∀ v, jsTruthy v = false → normalizeProbability v = "Low") ∧
    (∀ v, jsTruthy v = true →
      normalizeProbability v = jsTitle (jsTrim (jsToString v))) ∧
    normalizeProbability (JVal.str "high") = "High" ∧
    normalizeProbability (JVal.str "HIGH") = "High" ∧
    normalizeProbability (JVal.str " Medium ") = "Medium" ∧
    normalizeProbability (JVal.str "low") = "Low" ∧
    normalizeProbability (JVal.str "") = "Low" ∧
    normalizeProbability JVal.null = "Low" ∧
    normalizeProbability (JVal.str "unknown") = "Unknown" := by
  refine ⟨?_, ?_, by decide, by decide, by decide, by decide, by decide,
    by decide, by decide⟩
  · intro v h
    simp [normalizeProbability, h]
  · intro v h
    simp [normalizeProbability, h]

/-- C1, witness for the amended theorem at the concrete falsy input
`null`. -/
theorem normalizeProbability_characterization_witness :
    jsTruthy JVal.null = false ∧ normalizeProbability JVal.null = "Low" :=
  ⟨rfl, normalizeProbability_characterization.1 JVal.null rfl⟩

/-- C2: evaluating `handleSubmit`'s response handling at a response whose
urgency is the unrecognized value `"unknown"` (and whose two arrays are
present): the response passes the shape check untouched — no rejection, no
defaulting — so the unrecognized urgency reaches the rendered result, where
the unguarded lookup `urgencyConfig[result.urgency]` yields `undefined` and
the subsequent property reads throw. -/
theorem urgency_passthrough_unguarded :
    normalizeAnalyzeResponse badUrgencyResponse =
        Except.ok badUrgencyResponse ∧
      jsGet badUrgencyResponse "urgency" = JVal.str "unknown" ∧
      urgencyLookup "unknown" = none := by
  exact ⟨rfl, rfl, by decide⟩

/-- C3: whenever the parsed response is falsy (in particular `null`) or its
`conditions` or `recommendations` field is not an array, `handleSubmit`
throws the shape error — the caught error sets the error state and no
result is ever produced from such a response. -/
theorem analyzeResponse_shape_rejected (data : JVal)
    (h : jsTruthy data = false ∨ isArr (jsGet data "conditions") = false ∨
      isArr (jsGet data "recommendations") = false) :
    normalizeAnalyzeResponse data = Except.error shapeErrorMsg := by
  unfold normalizeAnalyzeResponse
  rcases h with h | h | h
  · rw [if_neg (by simp [h])]
  · by_cases ht : jsTruthy data = true
    · rw [if_pos ht]
      cases hc : jsGet data "conditions" <;>
        cases hr : jsGet data "recommendations" <;> simp_all [isArr]
    · rw [if_neg ht]
  · by_cases ht : jsTruthy data = true
    · rw [if_pos ht]
      cases hc : jsGet data "conditions" <;>
        cases hr : jsGet data "recommendations" <;> simp_all [isArr]
    · rw [if_neg ht]

/-- C3, witness at the concrete response `null`. -/
theorem analyzeResponse_shape_rejected_witness :
    jsTruthy JVal.null = false ∧
      normalizeAnalyzeResponse JVal.null = Except.error shapeErrorMsg :=
  ⟨rfl, analyzeResponse_shape_rejected JVal.null (Or.inl rfl)⟩

/-- C6: when the symptoms text trims to the empty string, `handleSubmit`
returns before building or issuing any request, for every state of the
other form fields and every behaviour of the host `parseInt`. -/
theorem handleSubmit_blank_symptoms_no_request (pint : String → Int)
    (symptoms age gender duration : String) (h : jsTrim symptoms = "") :
    handleSubmitRequest pint symptoms age gender duration = none := by
  simp [handleSubmitRequest, h]

/-- C6, witness at whitespace-only symptoms. -/
theorem handleSubmit_blank_symptoms_no_request_witness :
    jsTrim "   " = "" ∧
      handleSubmitRequest pintZero "   " "30" "male" "2 days" = none :=
  ⟨by decide,
    handleSubmit_blank_symptoms_no_request pintZero "   " "30" "male"
      "2 days" (by decide)⟩

/-- C7, counterexample: the default limit of `fetchHistory` is 20, not 50 —
a call without explicit arguments requests `limit=20&skip=0`. -/
theorem fetchHistory_default_limit_not_50 :
    fetchHistoryDefaultLimit = 20 ∧ fetchHistoryDefaultLimit ≠ 50 ∧
      fetchHistoryUrlDefault "http://localhost:8000" ≠
        fetchHistoryUrl "http://localhost:8000" 50 0 := by
  exact ⟨rfl, by decide, by decide⟩

/-- C7 (amended): called without explicit arguments, `fetchHistory` uses a
default limit of 20 and a default offset of 0: the fetched URL is
`/api/history?limit=20&skip=0`. -/
theorem fetchHistory_defaults (apiUrl : String) :
    fetchHistoryDefaultLimit = 20 ∧ fetchHistoryDefaultSkip = 0 ∧
      fetchHistoryUrlDefault apiUrl =
        apiUrl ++ "/api/history?limit=20&skip=0" := by
  refine ⟨rfl, rfl, ?_⟩
  rw [fetchHistoryUrlDefault, fetchHistoryUrl, String.append_assoc,
    String.append_assoc, String.append_assoc]
  rfl

/-- C8, counterexample: once the user confirms the dialog, `handleDelete`
calls `deleteHistory` with whatever identifier the item carried — for the
defaulted empty identifier a DELETE request to `/api/history/` (empty id
segment) is issued, rather than the item being treated as
non-deletable. -/
theorem handleDelete_empty_id_request_sent :
    handleDeleteRequest "http://localhost:8000" true "" =
      some "http://localhost:8000/api/history/" := rfl

/-- C8 (amended): deletion is gated only by the user confirmation dialog —
a declined dialog issues no request, and a confirmed dialog issues the
delete request for every identifier, including the empty string; neither
`handleDelete` nor `deleteHistory` validates the identifier. -/
theorem handleDelete_gated_only_by_confirm (apiUrl id : String) :
    handleDeleteRequest apiUrl false id = none ∧
      handleDeleteRequest apiUrl true id =
        some (deleteHistoryUrl apiUrl id) :=
  ⟨rfl, rfl⟩

theorem tryCandidate_eq_spec (pd : String → Option Int) (fmt : Int → String)
    (hpd : pd "" = none) (v : JVal) (hso : strOnlyDollarDate v = true) :
    tryCandidate pd fmt v = (specCandidateParse pd v).map fmt := by
  cases v with
  | undef => simp [tryCandidate, specCandidateParse, jsTruthy, jsGetOpt, jsNullish]
  | null => simp [tryCandidate, specCandidateParse, jsTruthy, jsGetOpt, jsNullish]
  | bool b =>
    cases b <;>
      simp [tryCandidate, specCandidateParse, jsTruthy, jsGetOpt, jsNullish, jsGet]
  | num n =>
    by_cases hn : (n == 0) = true <;>
      simp [tryCandidate, specCandidateParse, jsTruthy, jsGetOpt, jsNullish,
        jsGet, hn]
  | str s =>
    by_cases hs : s = ""
    · simp [tryCandidate, specCandidateParse, jsTruthy, hs, hpd]
    · simp only [tryCandidate, specCandidateParse, jsTruthy]
      rw [if_pos (by simp [hs])]
      cases pd s <;> simp
  | arr xs =>
    simp [tryCandidate, specCandidateParse, jsTruthy, jsGetOpt, jsNullish, jsGet]
  | obj fields =>
    have hopt : jsGetOpt (JVal.obj fields) "$date" =
        jsGet (JVal.obj fields) "$date" := by
      simp [jsGetOpt, jsNullish]
    unfold strOnlyDollarDate at hso
    rw [hopt] at hso
    simp only [tryCandidate, specCandidateParse, jsTruthy, if_pos]
    rw [hopt]
    cases hd : jsGet (JVal.obj fields) "$date" with
    | str s =>
      by_cases hs : s = ""
      · simp [jsTruthy, hs, hpd, jsNewDate]
      · rw [if_pos (by simp [jsTruthy, hs])]
        simp only [jsNewDate]
        cases pd s <;> simp
    | bool b =>
      rw [hd] at hso
      cases b
      · simp [jsTruthy]
      · simp [jsTruthy, isStr] at hso
    | num n =>
      rw [hd] at hso
      by_cases hn : (n == 0) = true
      · simp [jsTruthy, hn]
      · simp [jsTruthy, isStr, hn] at hso
    | undef => simp [jsTruthy]
    | null => simp [jsTruthy]
    | arr ys =>
      rw [hd] at hso
      simp [jsTruthy, isStr] at hso
    | obj fs =>
      rw [hd] at hso
      simp [jsTruthy, isStr] at hso

theorem dateLoop_eq_findSome (pd : String → Option Int) (fmt : Int → String)
    (hpd : pd "" = none) (l : List JVal)
    (hl : ∀ v ∈ l, strOnlyDollarDate v = true) :
    dateLoop pd fmt l =
      (match l.findSome? (specCandidateParse pd) with
       | some t => fmt t
       | none => "Invalid Date") := by
  induction l with
  | nil => rfl
  | cons v rest ih =>
    rw [dateLoop, tryCandidate_eq_spec pd fmt hpd v (hl v (by simp)),
      List.findSome?_cons]
    cases specCandidateParse pd v <;>
      simp [ih (fun w hw => hl w (List.mem_cons_of_mem v hw))]

/-- C4 (amended): for every host date parser rejecting the empty string
(as `new Date("")` does) and every document whose truthy `$date` envelope
values are plain strings, `safeDateFromDoc` agrees with the specified
string-only resolution: the candidates `_created_at`, `created_at`,
`createdAt`, `result._created_at` are tried in that fixed order, each
accepted as a plain string or as a `{ $date: <string> }` envelope, the
first parse determines the display string, and when no candidate parses
the result is the literal `"Invalid Date"` sentinel — the function is
total, it never throws.  Outside that domain the code is more lenient
than the claim: a truthy non-string `$date` value is handed to the `Date`
constructor and can resolve (see the counterexample). -/
theorem safeDateFromDoc_matches_spec (pd : String → Option Int)
    (fmt : Int → String) (doc : JVal) (hpd : pd "" = none)
    (hstr : ∀ v ∈ dateCandidates doc, strOnlyDollarDate v = true) :
    safeDateFromDoc pd fmt doc = resolveDateSpec pd fmt doc ∧
      ((∀ v ∈ dateCandidates doc, specCandidateParse pd v = none) →
        safeDateFromDoc pd fmt doc = "Invalid Date") := by
  have h := dateLoop_eq_findSome pd fmt hpd (dateCandidates doc) hstr
  constructor
  · rw [safeDateFromDoc, resolveDateSpec, h]
  · intro hall
    rw [safeDateFromDoc, h, List.findSome?_eq_none_iff.mpr hall]

/-- C4, counterexample: at a document whose `_created_at` is a numeric
`{ $date }` envelope, the loop hands the number to `new Date`, which
accepts it as a millisecond timestamp, and returns a formatted date —
while the claim's resolution, accepting only plain strings and
`{ $date: <string> }` envelopes, parses no candidate and yields the
`"Invalid Date"` sentinel. -/
theorem safeDateFromDoc_numeric_dollarDate :
    safeDateFromDoc pdIso fmtTs docNumDate = "@1704164645000" ∧
      resolveDateSpec pdIso fmtTs docNumDate = "Invalid Date" ∧
      safeDateFromDoc pdIso fmtTs docNumDate ≠
        resolveDateSpec pdIso fmtTs docNumDate := by
  exact ⟨by decide, by decide, by decide⟩

/-- C4, witness for the amended theorem at a concrete parser and a
document carrying its timestamp as a plain `created_at` string. -/
theorem safeDateFromDoc_matches_spec_witness :
    pdIso "" = none ∧
      (∀ v ∈ dateCandidates docCreatedAt, strOnlyDollarDate v = true) ∧
      safeDateFromDoc pdIso fmtTs docCreatedAt =
        resolveDateSpec pdIso fmtTs docCreatedAt :=
  ⟨by decide, by decide,
    (safeDateFromDoc_matches_spec pdIso fmtTs docCreatedAt (by decide)
      (by decide)).1⟩

/-- C5, counterexample: the claim quantifies over history documents of
arbitrary shape, but for a `null` list element the unguarded plain access
`it._id` (the one field read without optional chaining) throws a
`TypeError`, so no displayable item is produced. -/
theorem historyDisplay_throws_on_null :
    historyDisplay pdNone fmtTs JVal.null = Except.error () := rfl

/-- C5 (amended): for every non-nullish history document — any shape other
than `null`/`undefined` — the normalization succeeds, and `input.symptoms`,
`input.age`, `input.gender` each default to `"N/A"` when absent (nullish),
`result.summary` defaults to the empty string, `result.recommendations`
and `result.conditions` are each treated as the empty sequence when not an
array, and the identifier defaults to the empty string when falsy; a
nullish document itself, however, makes the unguarded `it._id` read
throw. -/
theorem historyDisplay_defaults (pd : String → Option Int)
    (fmt : Int → String) (it : JVal) (h : jsNullish it = false) :
    ∃ d, historyDisplay pd fmt it = Except.ok d ∧
      (jsNullish (jsGet (jsCoalesce (jsGetOpt it "input") (JVal.obj []))
          "symptoms") = true → d.symptoms = JVal.str "N/A") ∧
      (jsNullish (jsGet (jsCoalesce (jsGetOpt it "input") (JVal.obj []))
          "age") = true → d.age = JVal.str "N/A") ∧
      (jsNullish (jsGet (jsCoalesce (jsGetOpt it "input") (JVal.obj []))
          "gender") = true → d.gender = JVal.str "N/A") ∧
      (jsNullish (jsGet (jsCoalesce (jsGetOpt it "result") (JVal.obj []))
          "summary") = true → d.summary = JVal.str "") ∧
      (isArr (jsGet (jsCoalesce (jsGetOpt it "result") (JVal.obj []))
          "recommendations") = false → d.recs = []) ∧
      (isArr (jsGet (jsCoalesce (jsGetOpt it "result") (JVal.obj []))
          "conditions") = false → d.conditions = []) ∧
      (jsTruthy (jsGet it "_id") = false → d.id = JVal.str "") := by
  cases it
  case undef => simp [jsNullish] at h
  case null => simp [jsNullish] at h
  all_goals
    exact ⟨_, rfl, fun hx => jsCoalesce_of_nullish _ _ hx,
      fun hx => jsCoalesce_of_nullish _ _ hx,
      fun hx => jsCoalesce_of_nullish _ _ hx,
      fun hx => jsCoalesce_of_nullish _ _ hx,
      fun hx => arrOrEmpty_of_not _ hx,
      fun hx => arrOrEmpty_of_not _ hx,
      fun hx => jsOr_of_falsy _ _ hx⟩

/-- C5, witness at the empty object document: every field is absent, and
the defaults fire. -/
theorem historyDisplay_defaults_witness :
    ∃ d, historyDisplay pdNone fmtTs (JVal.obj []) = Except.ok d ∧
      d.symptoms = JVal.str "N/A" ∧ d.id = JVal.str "" := by
  obtain ⟨d, hd, hs, _, _, _, _, _, hid⟩ :=
    historyDisplay_defaults pdNone fmtTs (JVal.obj []) rfl
  exact ⟨d, hd, hs rfl, hid rfl⟩

theorem normalizeProbability_reapply (v : JVal)
    (h : normalizeProbability v ≠ "") :
    normalizeProbability (JVal.str (normalizeProbability v)) =
      normalizeProbability v := by
  by_cases ht : jsTruthy v = true
  · have hp : normalizeProbability v = jsTitle (jsTrim (jsToString v)) := by
      rw [normalizeProbability, if_pos ht]
    rw [hp] at h ⊢
    rw [normalizeProbability, if_pos (by simpa [jsTruthy] using h)]
    exact titleTrim_idem (jsToString v)
  · have hp : normalizeProbability v = "Low" := by
      rw [normalizeProbability, if_neg ht]
    rw [hp]
    decide

theorem normalizeCondition_reapply_normal (x z : JVal) (p : String)
    (hp2 : normalizeProbability (JVal.str p) = p) :
    normalizeCondition (JVal.obj
      [("name", jsOr x (JVal.str "Unknown")),
       ("probability", JVal.str p),
       ("description", jsOr z (JVal.str ""))]) =
    some (JVal.obj
      [("name", jsOr x (JVal.str "Unknown")),
       ("probability", JVal.str p),
       ("description", jsOr z (JVal.str ""))]) := by
  show some (JVal.obj
      [("name", jsOr (jsOr x (JVal.str "Unknown")) (JVal.str "Unknown")),
       ("probability", JVal.str (normalizeProbability (JVal.str p))),
       ("description", jsOr (jsOr z (JVal.str "")) (JVal.str ""))]) = _
  rw [jsOr_absorb, jsOr_absorb, hp2]

/-- C9, counterexample: the per-condition normalization is not idempotent —
a condition whose probability is the whitespace-only (truthy) string `" "`
normalizes to probability `""` on the first pass, and that output
normalizes to probability `"Low"` on the second pass, so re-normalizing
changes the result.  (All strings involved are ASCII, where the embedded
trim and case maps compute exactly the host's behaviour.) -/
theorem normalizeCondition_not_idempotent :
    normalizeCondition condWhitespaceProb = some condBlankProb ∧
      normalizeCondition condBlankProb = some condLowProb ∧
      condBlankProb ≠ condLowProb := by
  refine ⟨rfl, rfl, ?_⟩
  intro hEq
  have h2 : jsGet condBlankProb "probability" =
      jsGet condLowProb "probability" :=
    congrArg (fun v => jsGet v "probability") hEq
  rw [show jsGet condBlankProb "probability" = JVal.str "" from rfl,
    show jsGet condLowProb "probability" = JVal.str "Low" from rfl] at h2
  injection h2 with h3
  exact absurd h3 (by decide)

/-- C9 (amended): restricted to conditions whose probability value
stringifies to ASCII — the domain on which the embedded trim and case
maps are exactly the host's — the per-condition normalization map is
idempotent precisely on the conditions whose normalized probability is
non-empty: re-applying the map to its output reproduces that output
exactly.  Idempotence fails for whitespace-only probabilities, where the
first pass yields `""` and the second `"Low"` (the counterexample), and,
outside the ASCII domain this theorem is scoped to, it also fails under
the host's Unicode special casing (`"ß"` title-cases to `"SS"`, which
re-normalizes to `"Ss"`) — a failure this ASCII embedding cannot express,
hence the `allAscii` hypothesis. -/
theorem normalizeCondition_idempotent_unless_blank (c c' : JVal)
    (hascii : allAscii (jsToString (jsGet c "probability")) = true)
    (h : normalizeCondition c = some c')
    (hp : jsGet c' "probability" ≠ JVal.str "") :
    normalizeCondition c' = some c' := by
  cases c
  case undef => simp [normalizeCondition] at h
  case null => simp [normalizeCondition] at h
  all_goals
    simp only [normalizeCondition, Option.some.injEq] at h
    subst h
    apply normalizeCondition_reapply_normal
    apply normalizeProbability_reapply
    intro he
    exact hp (congrArg JVal.str he)

/-- C9, witness: a name-only condition (whose absent probability
stringifies to the ASCII `"undefined"`) normalizes to the
Low/empty-string form, and re-normalizing that output is the identity. -/
theorem normalizeCondition_idempotent_unless_blank_witness :
    allAscii (jsToString (jsGet condNameOnly "probability")) = true ∧
      normalizeCondition condNameOnly = some condNameOnlyNorm ∧
      normalizeCondition condNameOnlyNorm = some condNameOnlyNorm := by
  have hp : jsGet condNameOnlyNorm "probability" ≠ JVal.str "" := by
    show JVal.str "Low" ≠ JVal.str ""
    intro hEq
    injection hEq with h3
    exact absurd h3 (by decide)
  exact ⟨by decide, rfl,
    normalizeCondition_idempotent_unless_blank condNameOnly
      condNameOnlyNorm (by decide) rfl hp⟩

/-- C10: on a confirmed and resolved delete, the new list is a sublist of
the old one (relative order of survivors preserved) containing exactly the
items whose stringified `_id` differs from the stringified requested id;
on a rejected delete, or a declined confirmation dialog, the list is
unchanged.  (The non-nullish hypothesis keeps the plain `it._id` read of
the filter callback within the domain where it cannot throw.) -/
theorem handleDelete_removes_exactly (items : List JVal) (id : String)
    (b : Bool) (hnn : ∀ it ∈ items, jsNullish it = false) :
    List.Sublist (handleDeleteItems true true items id) items ∧
      (∀ it, it ∈ handleDeleteItems true true items id ↔
        it ∈ items ∧ jsToString (jsGet it "_id") ≠ id) ∧
      handleDeleteItems true false items id = items ∧
      handleDeleteItems false b items id = items := by
  refine ⟨?_, ?_, rfl, rfl⟩
  · exact List.filter_sublist items
  · intro it
    simp [handleDeleteItems, List.mem_filter, jsToString]

/-- C10, witness on a concrete two-item list: deleting id `"a"` keeps the
`"b"` item and removes the `"a"` item. -/
theorem handleDelete_removes_exactly_witness :
    (∀ it ∈ itemsAB, jsNullish it = false) ∧
      JVal.obj [("_id", JVal.str "b")] ∈
        handleDeleteItems true true itemsAB "a" ∧
      JVal.obj [("_id", JVal.str "a")] ∉
        handleDeleteItems true true itemsAB "a" := by
  have hnn : ∀ it ∈ itemsAB, jsNullish it = false := by
    intro it hit
    simp only [itemsAB, List.mem_cons, List.not_mem_nil, or_false] at hit
    rcases hit with h | h <;> subst h <;> rfl
  have hth := handleDelete_removes_exactly itemsAB "a" true hnn
  refine ⟨hnn, ?_, ?_⟩
  · refine (hth.2.1 _).mpr ⟨by simp [itemsAB], ?_⟩
    show "b" ≠ "a"
    decide
  · intro hmem
    exact ((hth.2.1 _).mp hmem).2 rfl
